import Mathlib

/-!
Verification of the move-evaluation and classification pipeline of the
chess game analyzer backend (`backend/main.py`).

Evaluations (Python floats, in pawns) are modelled as rationals where the
code only does field arithmetic and comparisons, and as reals where the
code applies the exponential (win-percentage and accuracy formulas).
Python's `round(x, 1)` (round half to even) is modelled exactly on ℚ.
The external engine is modelled as an oracle: a stream of responses,
consumed one query at a time, exactly in the order the code issues them.
-/

namespace ChessEval

/-- `best_move_info` dictionaries built from the engine's principal
variation (`BestMove` pydantic model in the source). -/
structure BestMove where
  move : String
  from_square : String
  to_square : String
deriving DecidableEq, Repr

/-- The part of a `chess.engine` score object the code reads:
`score.is_mate()`, `score.mate()`, and `score.score(mate_score=10000)`
(a centipawn integer relative to the side to move, or nothing). -/
structure Score where
  is_mate : Bool
  mate : Option Int
  value : Option Int
deriving DecidableEq, Repr

/-- One engine reply: the optional first principal-variation move
(already converted to SAN / square names by the external chess library)
and the score. The code reads `pv` only on pre-move queries and the
score only on evaluation queries. -/
structure EngineResponse where
  pvBest : Option BestMove
  score : Score
deriving DecidableEq, Repr

/-- The data the external chess library supplies about one ply of the
parsed game: SAN of the played move, FEN after the move, and the side to
move before and after the move is pushed (`board.turn`). -/
structure PlyInput where
  san : String
  fenAfter : String
  turnBeforeWhite : Bool
  turnAfterWhite : Bool
deriving DecidableEq, Repr

/-- A parsed game as the external PGN library hands it to the analysis
code: headers, the side to move of the initial position, and the
mainline plies. -/
structure GameInput where
  whiteName : String
  blackName : String
  resultStr : String
  initialTurnWhite : Bool
  plies : List PlyInput
deriving DecidableEq, Repr

/-- Python's `round` to the nearest integer, ties to even (banker's
rounding), on exact rationals. -/
def roundHalfEven (q : ℚ) : ℤ :=
  let f := ⌊q⌋
  let r := q - f
  if r < 1/2 then f
  else if 1/2 < r then f + 1
  else if f % 2 = 0 then f else f + 1

/-- Python's `round(x, 1)`: round to one decimal place, ties to even. -/
def round1 (q : ℚ) : ℚ := (roundHalfEven (10 * q) : ℚ) / 10

/-- `to_white_perspective` from the source: convert a side-to-move
relative evaluation to white's perspective, passing `None` through. -/
def to_white_perspective (eval_relative : Option ℚ) (is_white_turn : Bool) : Option ℚ :=
  eval_relative.map (fun v => if is_white_turn then v else -v)

/-- `classify_move` from the source: mate-band check first, then
perspective flip, delta, rounded centipawn loss, threshold table. -/
def classify_move (eval_before eval_after : Option ℚ) (is_white_move : Bool) : String :=
  match eval_before, eval_after with
  | some evb, some eva =>
    if 100 ≤ |evb| ∨ 100 ≤ |eva| then
      if 100 ≤ |eva| then "Best"
      else if 100 ≤ |evb| then "Blunder"
      else "Unknown"
    else
      let evb' := if is_white_move then evb else -evb
      let eva' := if is_white_move then eva else -eva
      let delta := eva' - evb'
      let centipawn_loss := round1 (-delta * 100)
      if centipawn_loss < 20 then "Best"
      else if centipawn_loss < 50 then "Excellent"
      else if centipawn_loss < 150 then "Good"
      else if centipawn_loss < 300 then "Inaccuracy"
      else if centipawn_loss < 600 then "Mistake"
      else "Blunder"
  | _, _ => "Unknown"

/-- `centipawn_to_win_percent` from the source (Lichess logistic curve),
on the reals. -/
noncomputable def centipawn_to_win_percent (cp : ℝ) : ℝ :=
  50 + 50 * (2 / (1 + Real.exp (-0.00368208 * cp)) - 1)

/-- `calculate_move_accuracy` from the source: Lichess accuracy formula
on the win-percentage drop, clamped to `[0, 100]`. -/
noncomputable def calculate_move_accuracy (win_percent_before win_percent_after : ℝ) : ℝ :=
  let win_loss := win_percent_before - win_percent_after
  let accuracy := 103.1668 * Real.exp (-0.04354 * win_loss) - 3.1669
  max 0 (min 100 accuracy)

/-- `calculate_game_accuracy` from the source. The Python list may hold
`None` entries (the code guards `a is not None and a > 0`), hence the
`Option` element type; polymorphic so the pure aggregation facts can be
evaluated on ℚ while the pipeline instantiates it at ℝ. -/
def calculate_game_accuracy {α : Type} [LinearOrderedField α]
    (accuracies : List (Option α)) : α :=
  if accuracies.isEmpty then 0
  else
    let valid_accuracies := accuracies.filterMap (fun a =>
      a.bind (fun x => if 0 < x then some x else none))
    if valid_accuracies.isEmpty then 0
    else
      let arithmetic_mean := valid_accuracies.sum / (valid_accuracies.length : α)
      let harmonic_mean :=
        (valid_accuracies.length : α) / (valid_accuracies.map (fun a => 1 / a)).sum
      (arithmetic_mean + harmonic_mean) / 2

/-- The C1 claim's classification rule exactly as the claim states it:
thresholds applied to the raw, unrounded centipawn loss. -/
def classifySpecRaw (evb eva : ℚ) (is_white_move : Bool) : String :=
  let evb' := if is_white_move then evb else -evb
  let eva' := if is_white_move then eva else -eva
  let loss := -(eva' - evb') * 100
  if loss < 20 then "Best"
  else if loss < 50 then "Excellent"
  else if loss < 150 then "Good"
  else if loss < 300 then "Inaccuracy"
  else if loss < 600 then "Mistake"
  else "Blunder"

/-- The amended C1 classification rule: as the claim states it, except
that the centipawn loss is first rounded to one decimal place (ties to
even), as the code does. -/
def classifySpecRounded (evb eva : ℚ) (is_white_move : Bool) : String :=
  let evb' := if is_white_move then evb else -evb
  let eva' := if is_white_move then eva else -eva
  let loss := round1 (-(eva' - evb') * 100)
  if loss < 20 then "Best"
  else if loss < 50 then "Excellent"
  else if loss < 150 then "Good"
  else if loss < 300 then "Inaccuracy"
  else if loss < 600 then "Mistake"
  else "Blunder"

/-- One per-move record produced by `analyze_game` (the dict appended to
`moves_analysis`, the `MoveAnalysis` pydantic model). -/
structure MoveAnalysis where
  move_number : ℕ
  move : String
  eval_before : Option ℚ
  eval_after : Option ℚ
  classification : String
  fen : String
  best_move : Option BestMove
  win_percent_before : Option ℝ
  win_percent_after : Option ℝ
  accuracy : Option ℝ
  is_mate_before : Bool
  is_mate_after : Bool
  mate_in_before : Option ℤ
  mate_in_after : Option ℤ

/-- One per-move record produced by the `/analyze` endpoint
(`MoveAnalysisSimple` in the source). -/
structure MoveAnalysisSimple where
  move : String
  eval : Option ℚ
  delta : Option ℚ
  label : String
  best_move : Option BestMove
  is_mate : Bool
  mate_in : Option ℤ

/-- The dict `analyze_game` returns. -/
structure GameResult where
  white_player : String
  black_player : String
  result : String
  moves : List MoveAnalysis
  white_accuracy : Option ℝ
  black_accuracy : Option ℝ

/-- Lines 379-402 of `analyze_game`: the win-percentage and accuracy
fields, computed only when both evaluations are available; white-side
win percentages are flipped for a black mover. -/
noncomputable def accuracyFields (eval_before eval_after : Option ℚ) (is_white_move : Bool) :
    Option ℝ × Option ℝ × Option ℝ :=
  match eval_before, eval_after with
  | some evb, some eva =>
    let cp_before : ℝ := (evb : ℝ) * 100
    let cp_after : ℝ := (eva : ℝ) * 100
    let win_percent_before_white := centipawn_to_win_percent cp_before
    let win_percent_after_white := centipawn_to_win_percent cp_after
    let win_percent_before := if is_white_move then win_percent_before_white
      else 100 - win_percent_before_white
    let win_percent_after := if is_white_move then win_percent_after_white
      else 100 - win_percent_after_white
    (some win_percent_before, some win_percent_after,
      some (calculate_move_accuracy win_percent_before win_percent_after))
  | _, _ => (none, none, none)

/-- The per-ply loop of `analyze_game` (lines 339-431). The engine is
the oracle; query `k` is the next query the engine will answer. Each
ply issues the pre-move query `k` (for the principal variation) and the
post-move query `k+1` (for the score), exactly as the code does. -/
noncomputable def analyze_game_loop (oracle : ℕ → EngineResponse) :
    List PlyInput → ℕ → Option ℚ → Bool → Option ℤ → ℕ → List MoveAnalysis
  | [], _, _, _, _, _ => []
  | ply :: rest, k, eval_before, is_mate_before, mate_in_before, move_number =>
    let info := oracle k
    let best_move_info := info.pvBest
    let is_white_move := ply.turnBeforeWhite
    let san_move := ply.san
    let info2 := oracle (k + 1)
    let score := info2.score
    let is_mate_after := score.is_mate
    let mate_in_after0 := if is_mate_after then score.mate else none
    let eval_relative := score.value.map (fun v => (v : ℚ) / 100)
    let eval_after := to_white_perspective eval_relative ply.turnAfterWhite
    let mate_in_after := mate_in_after0.map (fun m => if ply.turnAfterWhite then m else -m)
    let classification := classify_move eval_before eval_after is_white_move
    let wa := accuracyFields eval_before eval_after is_white_move
    let best_move_data := if classification ≠ "Best" then best_move_info else none
    { move_number := move_number, move := san_move, eval_before := eval_before,
      eval_after := eval_after, classification := classification, fen := ply.fenAfter,
      best_move := best_move_data, win_percent_before := wa.1,
      win_percent_after := wa.2.1, accuracy := wa.2.2,
      is_mate_before := is_mate_before, is_mate_after := is_mate_after,
      mate_in_before := mate_in_before, mate_in_after := mate_in_after } ::
    analyze_game_loop oracle rest (k + 2) eval_after is_mate_after mate_in_after
      (if is_white_move then move_number else move_number + 1)

/-- `white_moves` of `analyze_game` line 435: records at even indices. -/
def white_moves_of (moves : List MoveAnalysis) : List MoveAnalysis :=
  (moves.enum.filter (fun p => p.1 % 2 = 0)).map (fun p => p.2)

/-- `black_moves` of `analyze_game` line 436: records at odd indices. -/
def black_moves_of (moves : List MoveAnalysis) : List MoveAnalysis :=
  (moves.enum.filter (fun p => p.1 % 2 = 1)).map (fun p => p.2)

/-- `analyze_game` from the source: seed the first `eval_before` with a
query on the initial position, run the ply loop, then aggregate the two
players' accuracies by ply parity. -/
noncomputable def analyze_game (oracle : ℕ → EngineResponse) (game : GameInput) : GameResult :=
  let info := oracle 0
  let score := info.score
  let is_mate_before := score.is_mate
  let mate_in_before0 := if is_mate_before then score.mate else none
  let eval_relative := score.value.map (fun v => (v : ℚ) / 100)
  let eval_before := to_white_perspective eval_relative game.initialTurnWhite
  let mate_in_before := mate_in_before0.map (fun m => if game.initialTurnWhite then m else -m)
  let moves_analysis := analyze_game_loop oracle game.plies 1 eval_before
    is_mate_before mate_in_before 1
  let white_accuracies := (white_moves_of moves_analysis).filterMap (fun m => m.accuracy)
  let black_accuracies := (black_moves_of moves_analysis).filterMap (fun m => m.accuracy)
  { white_player := game.whiteName, black_player := game.blackName,
    result := game.resultStr, moves := moves_analysis,
    white_accuracy := if white_accuracies.isEmpty then none
      else some (calculate_game_accuracy (white_accuracies.map some)),
    black_accuracy := if black_accuracies.isEmpty then none
      else some (calculate_game_accuracy (black_accuracies.map some)) }

/-- The per-ply loop of `analyze_pgn_endpoint` (lines 534-596): same
orchestration as `analyze_game_loop` but producing the simple records
(with a player-perspective delta, no accuracy, no move counter). -/
def analyze_pgn_loop (oracle : ℕ → EngineResponse) :
    List PlyInput → ℕ → Option ℚ → Bool → Option ℤ → List MoveAnalysisSimple
  | [], _, _, _, _ => []
  | ply :: rest, k, eval_before, is_mate_before, mate_in_before =>
    let info := oracle k
    let best_move_info := info.pvBest
    let is_white_move := ply.turnBeforeWhite
    let san_move := ply.san
    let info2 := oracle (k + 1)
    let score := info2.score
    let is_mate_after := score.is_mate
    let mate_in_after0 := if is_mate_after then score.mate else none
    let eval_relative := score.value.map (fun v => (v : ℚ) / 100)
    let eval_after := to_white_perspective eval_relative ply.turnAfterWhite
    let mate_in_after := mate_in_after0.map (fun m => if ply.turnAfterWhite then m else -m)
    let delta := match eval_before, eval_after with
      | some evb, some eva =>
        some ((if is_white_move then eva else -eva) - (if is_white_move then evb else -evb))
      | _, _ => none
    let label := classify_move eval_before eval_after is_white_move
    let best_move_data := if label ≠ "Best" then best_move_info else none
    { move := san_move, eval := eval_after, delta := delta, label := label,
      best_move := best_move_data, is_mate := is_mate_after, mate_in := mate_in_after } ::
    analyze_pgn_loop oracle rest (k + 2) eval_after is_mate_after mate_in_after

/-- `analyze_pgn_endpoint` from the source: identical seeding on the
initial position, then the simple per-ply loop. -/
def analyze_pgn_endpoint (oracle : ℕ → EngineResponse) (game : GameInput) :
    List MoveAnalysisSimple :=
  let info := oracle 0
  let score := info.score
  let is_mate_before := score.is_mate
  let mate_in_before0 := if is_mate_before then score.mate else none
  let eval_relative := score.value.map (fun v => (v : ℚ) / 100)
  let eval_before := to_white_perspective eval_relative game.initialTurnWhite
  let mate_in_before := mate_in_before0.map (fun m => if game.initialTurnWhite then m else -m)
  analyze_pgn_loop oracle game.plies 1 eval_before is_mate_before mate_in_before

/-- Oracle for the C7 witness: the post-move query of ply 0 (query 2)
returns no usable score; every other query scores +30 centipawns. -/
def oracleC7 : ℕ → EngineResponse := fun k =>
  if k = 2 then ⟨none, ⟨false, none, none⟩⟩ else ⟨none, ⟨false, none, some 30⟩⟩

/-- One-ply game for the C7 witness. -/
def gameC7 : GameInput := ⟨"W", "B", "1-0", true, [⟨"d4", "fenC7", true, false⟩]⟩

/-- The record `analyze_game oracleC7 gameC7` produces for ply 0. -/
def recordC7 : MoveAnalysis :=
  ⟨1, "d4", some (30 / 100), none, "Unknown", "fenC7", none, none, none, none,
    false, false, none, none⟩

/-- Oracle for the C8 counterexample: the pre-move query of ply 0
(query 1) suggests Qh5 — the very move that will be played — while the
evaluations (+200 cp before, 0 cp after) make the played move an
Inaccuracy. -/
def oracleC8 : ℕ → EngineResponse := fun k =>
  if k = 0 then ⟨none, ⟨false, none, some 200⟩⟩
  else if k = 1 then ⟨some ⟨"Qh5", "d1", "h5"⟩, ⟨false, none, some 0⟩⟩
  else ⟨none, ⟨false, none, some 0⟩⟩

/-- One-ply game for the C8 counterexample: the played move is Qh5,
identical to the engine's top suggestion. -/
def gameC8 : GameInput := ⟨"W", "B", "*", true, [⟨"Qh5", "fenC8", true, false⟩]⟩

/-- Oracle for the C8 witness: no score anywhere, a pv of e4 on the
pre-move query. -/
def oracleC8w : ℕ → EngineResponse := fun k =>
  if k = 1 then ⟨some ⟨"e4", "e2", "e4"⟩, ⟨false, none, none⟩⟩
  else ⟨none, ⟨false, none, none⟩⟩

/-- One-ply game for the C8 witness. -/
def gameC8w : GameInput := ⟨"W", "B", "*", true, [⟨"e4", "fenC8w", true, false⟩]⟩

/-- The record `analyze_game oracleC8w gameC8w` produces for ply 0. -/
def recordC8w : MoveAnalysis :=
  ⟨1, "e4", none, none, "Unknown", "fenC8w", some ⟨"e4", "e2", "e4"⟩, none, none, none,
    false, false, none, none⟩

/-- Oracle for C9: every query scores +9900 centipawns for the side to
move, so white's single move swings the white-perspective evaluation
from +99 to -99 pawns and its accuracy clamps to exactly 0. -/
def oracleC9 : ℕ → EngineResponse := fun _ => ⟨none, ⟨false, none, some 9900⟩⟩

/-- One-ply game (a single white move) for C9. -/
def gameC9 : GameInput := ⟨"W", "B", "0-1", true, [⟨"Qa3", "fenC9", true, false⟩]⟩

/-- The record `analyze_game oracleC9 gameC9` produces for its only ply. -/
noncomputable def recordC9 : MoveAnalysis :=
  { move_number := 1, move := "Qa3", eval_before := some 99, eval_after := some (-99),
    classification := "Blunder", fen := "fenC9", best_move := none,
    win_percent_before := (accuracyFields (some 99) (some (-99)) true).1,
    win_percent_after := (accuracyFields (some 99) (some (-99)) true).2.1,
    accuracy := (accuracyFields (some 99) (some (-99)) true).2.2,
    is_mate_before := false, is_mate_after := false,
    mate_in_before := none, mate_in_after := none }

end ChessEval

namespace ChessEval

/-- C1 (counterexample): the claim classifies by the raw loss
`-(eval_after_mover - eval_before_mover) * 100`; the code rounds that
loss to one decimal place first. At `eval_before = 0`,
`eval_after = -0.1996` (white mover) the raw loss is `19.96 < 20`, so
the claim demands "Best", but the code rounds to `20.0` and returns
"Excellent". -/
theorem classify_move_rounding_counterexample :
    classify_move (some 0) (some (-(1996/10000) : ℚ)) true = "Excellent" ∧
    classifySpecRaw 0 (-(1996/10000) : ℚ) true = "Best" ∧
    |(0 : ℚ)| < 100 ∧ |(-(1996/10000) : ℚ)| < 100 := by
  refine ⟨?_, ?_, by norm_num, by norm_num [abs_lt]⟩
  · norm_num [classify_move, round1, roundHalfEven, abs_lt, Int.floor_eq_iff]
  · norm_num [classifySpecRaw]

/-- C1 (amended): for evaluations of magnitude below the mate band, the
code flips both evaluations to the mover's perspective, computes the
centipawn loss `-(eval_after_mover - eval_before_mover) * 100`, rounds
it to one decimal place (ties to even), and classifies by the
left-closed/right-open threshold table Best/Excellent/Good/Inaccuracy/
Mistake/Blunder at 20/50/150/300/600. -/
theorem classify_move_table (evb eva : ℚ) (w : Bool)
    (hb : |evb| < 100) (ha : |eva| < 100) :
    classify_move (some evb) (some eva) w = classifySpecRounded evb eva w := by
  have hcond : ¬ (100 ≤ |evb| ∨ 100 ≤ |eva|) := by
    push_neg
    exact ⟨hb, ha⟩
  simp only [classify_move, classifySpecRounded, if_neg hcond]

/-- C1 witness: the amended table theorem evaluated at
`eval_before = 0`, `eval_after = 1`, white to move. -/
theorem classify_move_table_witness :
    |(0 : ℚ)| < 100 ∧ |(1 : ℚ)| < 100 ∧
    classify_move (some 0) (some 1) true = classifySpecRounded 0 1 true :=
  ⟨by norm_num, by norm_num,
    classify_move_table 0 1 true (by norm_num) (by norm_num)⟩

/-- C2: when either evaluation's magnitude is in the mate sentinel band
(≥ 100 pawns), `classify_move` bypasses the centipawn table and returns
"Best" if the after-move evaluation is in the band, "Blunder" if only
the before-move evaluation is, and "Unknown" otherwise, for every mover
side and regardless of the delta. -/
theorem classify_move_mate_band (evb eva : ℚ) (w : Bool)
    (h : 100 ≤ |evb| ∨ 100 ≤ |eva|) :
    classify_move (some evb) (some eva) w =
      (if 100 ≤ |eva| then "Best"
       else if 100 ≤ |evb| then "Blunder"
       else "Unknown") := by
  simp only [classify_move, if_pos h]

/-- C2 witness: the mate-band theorem evaluated at `eval_before = 100`,
`eval_after = 0`, white to move, giving "Blunder". -/
theorem classify_move_mate_band_witness :
    (100 ≤ |(100 : ℚ)| ∨ 100 ≤ |(0 : ℚ)|) ∧
    classify_move (some 100) (some 0) true =
      (if 100 ≤ |(0 : ℚ)| then "Best"
       else if 100 ≤ |(100 : ℚ)| then "Blunder"
       else "Unknown") :=
  ⟨Or.inl (by norm_num),
    classify_move_mate_band 100 0 true (Or.inl (by norm_num))⟩

/-- C4: on a list holding at least one non-`None`, strictly positive
accuracy, `calculate_game_accuracy` returns the simple average of the
arithmetic mean and the harmonic mean `n / Σ (1/aᵢ)` of exactly the
non-`None`, strictly positive entries. -/
theorem calculate_game_accuracy_formula (l : List (Option ℚ))
    (h : ∃ x : ℚ, some x ∈ l ∧ 0 < x) :
    calculate_game_accuracy l =
      (let valid := l.filterMap (fun a =>
         a.bind (fun x => if 0 < x then some x else none))
       (valid.sum / (valid.length : ℚ) +
         (valid.length : ℚ) / (valid.map (fun a => 1 / a)).sum) / 2) := by
  obtain ⟨x, hmem, hx⟩ := h
  have hne : l ≠ [] := by
    intro hnil
    rw [hnil] at hmem
    exact absurd hmem (List.not_mem_nil _)
  have hvalid : x ∈ l.filterMap (fun a =>
      a.bind (fun x => if 0 < x then some x else none)) := by
    apply List.mem_filterMap.2
    exact ⟨some x, hmem, by simp [hx]⟩
  have hvne : l.filterMap (fun a =>
      a.bind (fun x => if 0 < x then some x else none)) ≠ [] := by
    intro hnil
    rw [hnil] at hvalid
    exact absurd hvalid (List.not_mem_nil _)
  simp only [calculate_game_accuracy, List.isEmpty_iff]
  rw [if_neg hne, if_neg hvne]

/-- C4 witness: the game-accuracy formula evaluated at
`[None, -1, 2, 4]`, whose valid entries are `[2, 4]`: the result is
`((6/2) + (2/(1/2+1/4))) / 2 = 17/6`. -/
theorem calculate_game_accuracy_formula_witness :
    (∃ x : ℚ, some x ∈ [none, some (-1), some 2, some 4] ∧ 0 < x) ∧
    calculate_game_accuracy [none, some (-1), some 2, some (4 : ℚ)] =
      (let valid := [none, some (-1), some 2, some (4 : ℚ)].filterMap (fun a =>
         a.bind (fun x => if 0 < x then some x else none))
       (valid.sum / (valid.length : ℚ) +
         (valid.length : ℚ) / (valid.map (fun a => 1 / a)).sum) / 2) :=
  ⟨⟨2, by simp, by norm_num⟩,
    calculate_game_accuracy_formula _ ⟨2, by simp, by norm_num⟩⟩

/-- C5 (counterexample): at zero win-percentage loss the raw accuracy
formula gives `103.1668 - 3.1669 = 99.9999`, which does not exceed 100,
so the clamped result is `99.9999`, not the claimed clamp bound 100. -/
theorem calculate_move_accuracy_zero_counterexample :
    calculate_move_accuracy 50 50 = 99.9999 ∧ (99.9999 : ℝ) < 100 := by
  constructor
  · simp only [calculate_move_accuracy, sub_self, mul_zero, neg_zero, Real.exp_zero, mul_one]
    rw [min_eq_right (by norm_num), max_eq_right (by norm_num)]
    norm_num
  · norm_num

/-- C5 (amended): for every nonnegative win-percentage loss the clamped
accuracy lies in `[0, 100]`, and at zero loss the raw formula value is
`99.9999`, just below 100, which is returned unchanged by the clamp. -/
theorem calculate_move_accuracy_bounds (wb wa : ℝ) (h : 0 ≤ wb - wa) :
    (0 ≤ calculate_move_accuracy wb wa ∧ calculate_move_accuracy wb wa ≤ 100) ∧
    (wb - wa = 0 → calculate_move_accuracy wb wa = 99.9999) := by
  refine ⟨⟨le_max_left _ _, ?_⟩, ?_⟩
  · exact max_le (by norm_num) ((min_le_left _ _))
  · intro h0
    simp only [calculate_move_accuracy, h0, mul_zero, neg_zero, Real.exp_zero, mul_one]
    rw [min_eq_right (by norm_num), max_eq_right (by norm_num)]
    norm_num

/-- C5 witness: the bounds theorem evaluated at
`win_percent_before = win_percent_after = 50` (zero loss). -/
theorem calculate_move_accuracy_bounds_witness :
    (0 : ℝ) ≤ 50 - 50 ∧
    ((0 ≤ calculate_move_accuracy 50 50 ∧ calculate_move_accuracy 50 50 ≤ 100) ∧
      ((50 : ℝ) - 50 = 0 → calculate_move_accuracy 50 50 = 99.9999)) :=
  ⟨by norm_num, calculate_move_accuracy_bounds 50 50 (by norm_num)⟩

/-- The first record the ply loop emits carries exactly the `eval_before`
the loop was entered with. -/
theorem analyze_game_loop_head (oracle : ℕ → EngineResponse) (plies : List PlyInput)
    (k : ℕ) (evB : Option ℚ) (mB : Bool) (mInB : Option ℤ) (mn : ℕ) :
    (analyze_game_loop oracle plies k evB mB mInB mn).head?.map MoveAnalysis.eval_before =
      plies.head?.map (fun _ => evB) := by
  cases plies <;> rfl

/-- Consecutive records of the ply loop chain `eval_after` into the next
record's `eval_before`. -/
theorem analyze_game_loop_chain (oracle : ℕ → EngineResponse) :
    ∀ (plies : List PlyInput) (k : ℕ) (evB : Option ℚ) (mB : Bool)
      (mInB : Option ℤ) (mn : ℕ),
      List.Chain' (fun r s => s.eval_before = r.eval_after)
        (analyze_game_loop oracle plies k evB mB mInB mn) := by
  intro plies
  induction plies with
  | nil => intro k evB mB mInB mn; simp [analyze_game_loop]
  | cons ply rest ih =>
    intro k evB mB mInB mn
    simp only [analyze_game_loop]
    apply List.chain'_cons'.2
    refine ⟨?_, ih _ _ _ _ _⟩
    intro b hb
    have hhead := analyze_game_loop_head oracle rest (k + 2)
      (to_white_perspective ((oracle (k + 1)).score.value.map (fun v => (v : ℚ) / 100))
        ply.turnAfterWhite)
      (oracle (k + 1)).score.is_mate
      ((if (oracle (k + 1)).score.is_mate then (oracle (k + 1)).score.mate else none).map
        (fun m => if ply.turnAfterWhite then m else -m))
      (if ply.turnBeforeWhite then mn else mn + 1)
    rw [Option.mem_def] at hb
    rw [hb] at hhead
    rcases Option.map_eq_some'.1 hhead.symm with ⟨p, hp, hpe⟩
    exact hpe.symm

/-- C3: in every analyzed game the `eval_before` of each ply after the
first is bound to the previous ply's `eval_after` (the carry-forward
chain, including `None`), and ply 0's `eval_before` is the
white-perspective evaluation from the seeding query (query 0) on the
initial position. -/
theorem analyze_game_carry_forward (oracle : ℕ → EngineResponse) (game : GameInput) :
    List.Chain' (fun r s => s.eval_before = r.eval_after) (analyze_game oracle game).moves ∧
    (analyze_game oracle game).moves.head?.map MoveAnalysis.eval_before =
      game.plies.head?.map (fun _ =>
        to_white_perspective ((oracle 0).score.value.map (fun v => (v : ℚ) / 100))
          game.initialTurnWhite) := by
  constructor
  · exact analyze_game_loop_chain oracle game.plies 1 _ _ _ 1
  · exact analyze_game_loop_head oracle game.plies 1 _ _ _ 1

/-- The two per-ply loops agree, ply by ply, on SAN move, white-perspective
post-move evaluation, classification label, best-move annotation, and
post-move mate flag and distance. -/
theorem analyze_pgn_loop_agrees (oracle : ℕ → EngineResponse) :
    ∀ (plies : List PlyInput) (k : ℕ) (evB : Option ℚ) (mB : Bool)
      (mInB : Option ℤ) (mn : ℕ),
      (analyze_pgn_loop oracle plies k evB mB mInB).map
          (fun r => (r.move, r.eval, r.label, r.best_move, r.is_mate, r.mate_in)) =
        (analyze_game_loop oracle plies k evB mB mInB mn).map
          (fun r => (r.move, r.eval_after, r.classification, r.best_move,
            r.is_mate_after, r.mate_in_after)) := by
  intro plies
  induction plies with
  | nil => intro k evB mB mInB mn; rfl
  | cons ply rest ih =>
    intro k evB mB mInB mn
    simp only [analyze_pgn_loop, analyze_game_loop, List.map_cons]
    rw [ih _ _ _ _ (if ply.turnBeforeWhite then mn else mn + 1)]

/-- C10: given the same parsed game and the same stream of evaluator
responses, the `/analyze` endpoint loop and the `analyze_game` loop
produce, for every ply, the same SAN move, the same white-perspective
post-move evaluation, the same classification label, the same best-move
annotation, and the same post-move mate flag and mate distance. -/
theorem analyze_pgn_endpoint_equiv (oracle : ℕ → EngineResponse) (game : GameInput) :
    (analyze_pgn_endpoint oracle game).map
        (fun r => (r.move, r.eval, r.label, r.best_move, r.is_mate, r.mate_in)) =
      (analyze_game oracle game).moves.map
        (fun r => (r.move, r.eval_after, r.classification, r.best_move,
          r.is_mate_after, r.mate_in_after)) := by
  exact analyze_pgn_loop_agrees oracle game.plies 1 _ _ _ 1

/-- The ply loop emits exactly one record per ply: a missing evaluation
never aborts the analysis. -/
theorem analyze_game_loop_length (oracle : ℕ → EngineResponse) :
    ∀ (plies : List PlyInput) (k : ℕ) (evB : Option ℚ) (mB : Bool)
      (mInB : Option ℤ) (mn : ℕ),
      (analyze_game_loop oracle plies k evB mB mInB mn).length = plies.length := by
  intro plies
  induction plies with
  | nil => intro k evB mB mInB mn; rfl
  | cons ply rest ih =>
    intro k evB mB mInB mn
    simp only [analyze_game_loop, List.length_cons]
    rw [ih]

/-- `classify_move` on a missing evaluation is "Unknown". -/
theorem classify_move_missing (eb ea : Option ℚ) (w : Bool)
    (h : eb = none ∨ ea = none) : classify_move eb ea w = "Unknown" := by
  rcases h with h | h
  · subst h; cases ea <;> rfl
  · subst h; cases eb <;> rfl

/-- The accuracy fields on a missing evaluation are all `None`. -/
theorem accuracyFields_missing (eb ea : Option ℚ) (w : Bool)
    (h : eb = none ∨ ea = none) : accuracyFields eb ea w = (none, none, none) := by
  rcases h with h | h
  · subst h; cases ea <;> rfl
  · subst h; cases eb <;> rfl

/-- Every record the ply loop emits carries the classification and
accuracy fields computed from its own two evaluations and its ply's
mover side. -/
theorem analyze_game_loop_get_fields (oracle : ℕ → EngineResponse) :
    ∀ (plies : List PlyInput) (k : ℕ) (evB : Option ℚ) (mB : Bool)
      (mInB : Option ℤ) (mn i : ℕ) (r : MoveAnalysis) (p : PlyInput),
      (analyze_game_loop oracle plies k evB mB mInB mn).get? i = some r →
      plies.get? i = some p →
      r.classification = classify_move r.eval_before r.eval_after p.turnBeforeWhite ∧
      (r.win_percent_before, r.win_percent_after, r.accuracy) =
        accuracyFields r.eval_before r.eval_after p.turnBeforeWhite := by
  intro plies
  induction plies with
  | nil =>
    intro k evB mB mInB mn i r p h1 h2
    simp at h2
  | cons ply rest ih =>
    intro k evB mB mInB mn i r p h1 h2
    cases i with
    | zero =>
      simp only [analyze_game_loop, List.get?_cons_zero, Option.some.injEq] at h1 h2
      subst h1
      subst h2
      exact ⟨rfl, rfl⟩
    | succ i =>
      simp only [analyze_game_loop, List.get?_cons_succ] at h1 h2
      exact ih _ _ _ _ _ i r p h1 h2

/-- Every record the ply loop emits carries as `best_move` the pre-move
query's principal-variation head, unless its classification is "Best". -/
theorem analyze_game_loop_get_best (oracle : ℕ → EngineResponse) :
    ∀ (plies : List PlyInput) (k : ℕ) (evB : Option ℚ) (mB : Bool)
      (mInB : Option ℤ) (mn i : ℕ) (r : MoveAnalysis),
      (analyze_game_loop oracle plies k evB mB mInB mn).get? i = some r →
      r.best_move =
        (if r.classification ≠ "Best" then (oracle (k + 2 * i)).pvBest else none) := by
  intro plies
  induction plies with
  | nil =>
    intro k evB mB mInB mn i r h1
    simp [analyze_game_loop] at h1
  | cons ply rest ih =>
    intro k evB mB mInB mn i r h1
    cases i with
    | zero =>
      simp only [analyze_game_loop, List.get?_cons_zero, Option.some.injEq] at h1
      subst h1
      simp only [Nat.mul_zero, Nat.add_zero]
    | succ i =>
      simp only [analyze_game_loop, List.get?_cons_succ] at h1
      have hx := ih _ _ _ _ _ i r h1
      rw [show k + 2 + 2 * i = k + 2 * (i + 1) from by ring] at hx
      exact hx

/-- C6: the logistic win-percentage conversion maps 0 centipawns to
exactly 50 and is strictly increasing in the centipawn value. -/
theorem centipawn_to_win_percent_props :
    centipawn_to_win_percent 0 = 50 ∧ StrictMono centipawn_to_win_percent := by
  constructor
  · simp [centipawn_to_win_percent, Real.exp_zero]
    norm_num
  · intro a b hab
    have hexp : Real.exp (-0.00368208 * b) < Real.exp (-0.00368208 * a) := by
      apply Real.exp_lt_exp.2
      nlinarith
    have hb0 : (0 : ℝ) < 1 + Real.exp (-0.00368208 * b) := by
      have := Real.exp_pos (-0.00368208 * b)
      linarith
    have hdiv : 2 / (1 + Real.exp (-0.00368208 * a)) <
        2 / (1 + Real.exp (-0.00368208 * b)) := by
      apply div_lt_div_of_pos_left (by norm_num) hb0
      linarith
    simp only [centipawn_to_win_percent]
    linarith

/-- C7: the analysis never fails on a missing evaluation — every ply
still gets a record — and a record with a missing evaluation on either
side is classified "Unknown" with `None` win percentages and accuracy,
while every record with both evaluations available is classified and
scored by the normal formulas on exactly those two evaluations. -/
theorem analyze_game_missing_evaluation (oracle : ℕ → EngineResponse) (game : GameInput) :
    (analyze_game oracle game).moves.length = game.plies.length ∧
    ∀ (i : ℕ) (r : MoveAnalysis) (p : PlyInput),
      (analyze_game oracle game).moves.get? i = some r →
      game.plies.get? i = some p →
      ((r.eval_before = none ∨ r.eval_after = none) →
        r.classification = "Unknown" ∧ r.win_percent_before = none ∧
          r.win_percent_after = none ∧ r.accuracy = none) ∧
      (∀ b a : ℚ, r.eval_before = some b → r.eval_after = some a →
        r.classification = classify_move (some b) (some a) p.turnBeforeWhite ∧
        (r.win_percent_before, r.win_percent_after, r.accuracy) =
          accuracyFields (some b) (some a) p.turnBeforeWhite) := by
  constructor
  · exact analyze_game_loop_length oracle game.plies 1 _ _ _ 1
  · intro i r p h1 h2
    obtain ⟨hc, hw⟩ := analyze_game_loop_get_fields oracle game.plies 1 _ _ _ 1 i r p h1 h2
    constructor
    · intro hnone
      rw [accuracyFields_missing _ _ _ hnone] at hw
      rw [Prod.ext_iff, Prod.ext_iff] at hw
      exact ⟨hc.trans (classify_move_missing _ _ _ hnone), hw.1, hw.2.1, hw.2.2⟩
    · intro b a hb ha
      rw [hb, ha] at hc hw
      exact ⟨hc, hw⟩

/-- C7 witness: in `gameC7` the post-move query of the only ply returns
no score, and the produced record is "Unknown" with `None` accuracy
fields. -/
theorem analyze_game_missing_evaluation_witness :
    (analyze_game oracleC7 gameC7).moves.get? 0 = some recordC7 ∧
    gameC7.plies.get? 0 = some ⟨"d4", "fenC7", true, false⟩ ∧
    (recordC7.eval_before = none ∨ recordC7.eval_after = none) ∧
    (recordC7.classification = "Unknown" ∧ recordC7.win_percent_before = none ∧
      recordC7.win_percent_after = none ∧ recordC7.accuracy = none) :=
  ⟨rfl, rfl, Or.inr rfl,
    ((analyze_game_missing_evaluation oracleC7 gameC7).2 0 recordC7
      ⟨"d4", "fenC7", true, false⟩ rfl rfl).1 (Or.inr rfl)⟩

/-- C8 (amended): a record's `best_move` is populated exactly when its
classification is not "Best" and the pre-move query (query `2i+1` for
ply `i`) returned a principal variation; the played move is never
compared against the suggestion. -/
theorem analyze_game_best_move_population (oracle : ℕ → EngineResponse) (game : GameInput)
    (i : ℕ) (r : MoveAnalysis)
    (h : (analyze_game oracle game).moves.get? i = some r) :
    r.best_move =
      (if r.classification ≠ "Best" then (oracle (2 * i + 1)).pvBest else none) := by
  have hx := analyze_game_loop_get_best oracle game.plies 1 _ _ _ 1 i r h
  rw [Nat.add_comm 1 (2 * i)] at hx
  exact hx

/-- C8 witness: the amended population rule evaluated on `gameC8w`,
whose only record is "Unknown" and carries the suggested e4. -/
theorem analyze_game_best_move_population_witness :
    (analyze_game oracleC8w gameC8w).moves.get? 0 = some recordC8w ∧
    recordC8w.best_move =
      (if recordC8w.classification ≠ "Best" then (oracleC8w (2 * 0 + 1)).pvBest else none) :=
  ⟨rfl, analyze_game_best_move_population oracleC8w gameC8w 0 recordC8w rfl⟩

/-- C8 (counterexample): in `gameC8` the played move Qh5 is exactly the
engine's top suggestion, yet because the move is classified
"Inaccuracy" the code still populates `best_move` (with that same
move); the claim demands `best_move` be absent whenever the played move
equals the suggestion. -/
theorem analyze_game_best_move_counterexample :
    (analyze_game oracleC8 gameC8).moves.map
        (fun r => (r.move, r.classification, r.best_move)) =
      [("Qh5", "Inaccuracy", some ⟨"Qh5", "d1", "h5"⟩)] := by
  have h0 : (analyze_game oracleC8 gameC8).moves.map
      (fun r => (r.move, r.classification, r.best_move)) =
      [("Qh5", classify_move (some (200 / 100)) (some (-(0 / 100))) true,
        if classify_move (some (200 / 100)) (some (-(0 / 100))) true ≠ "Best"
        then some ⟨"Qh5", "d1", "h5"⟩ else none)] := rfl
  have h1 : classify_move (some (200 / 100)) (some (-(0 / 100))) true = "Inaccuracy" := by
    norm_num [classify_move, round1, roundHalfEven, abs_lt, Int.floor_eq_iff]
  rw [h0, h1]
  rw [if_pos (by decide : ("Inaccuracy" : String) ≠ "Best")]

/-- Numeric bound used for C9: `e^7 > 1000`. -/
theorem exp_seven_gt : (1000 : ℝ) < Real.exp 7 := by
  have h1 : (2.7182818283 : ℝ) ^ 7 < Real.exp 1 ^ 7 :=
    pow_lt_pow_left₀ Real.exp_one_gt_d9 (by norm_num) (by norm_num)
  have h2 : Real.exp 1 ^ 7 = Real.exp 7 := by
    rw [← Real.exp_nat_mul]
    norm_num
  nlinarith [h1, h2]

/-- Numeric bound used for C9: `e^4 > 54`. -/
theorem exp_four_gt : (54 : ℝ) < Real.exp 4 := by
  have h1 : (2.7182818283 : ℝ) ^ 4 < Real.exp 1 ^ 4 :=
    pow_lt_pow_left₀ Real.exp_one_gt_d9 (by norm_num) (by norm_num)
  have h2 : Real.exp 1 ^ 4 = Real.exp 4 := by
    rw [← Real.exp_nat_mul]
    norm_num
  nlinarith [h1, h2]

/-- At +9900 centipawns the win percentage exceeds 99.8. -/
theorem win_percent_hi : (99.8 : ℝ) < centipawn_to_win_percent 9900 := by
  have h1 : Real.exp (-0.00368208 * 9900) < Real.exp (-7) := by
    apply Real.exp_lt_exp.2
    norm_num
  have h2 : Real.exp (-7) < 1 / 1000 := by
    rw [Real.exp_neg, inv_lt_comm₀ (Real.exp_pos 7) (by norm_num)]
    norm_num [exp_seven_gt]
  have hpos : (0 : ℝ) < Real.exp (-0.00368208 * 9900) := Real.exp_pos _
  have hden0 : (0 : ℝ) < 1 + Real.exp (-0.00368208 * 9900) := by linarith
  have hfrac : (2 : ℝ) / 1.001 < 2 / (1 + Real.exp (-0.00368208 * 9900)) := by
    apply div_lt_div_of_pos_left (by norm_num) hden0
    linarith
  simp only [centipawn_to_win_percent]
  nlinarith [hfrac]

/-- At -9900 centipawns the win percentage is below 0.2. -/
theorem win_percent_lo : centipawn_to_win_percent (-9900) < (0.2 : ℝ) := by
  have h1 : Real.exp 7 ≤ Real.exp (-0.00368208 * (-9900)) := by
    apply Real.exp_le_exp.2
    norm_num
  have h2 : (1000 : ℝ) < Real.exp (-0.00368208 * (-9900)) := lt_of_lt_of_le exp_seven_gt h1
  have hfrac : (2 : ℝ) / (1 + Real.exp (-0.00368208 * (-9900))) < 2 / 1001 := by
    apply div_lt_div_of_pos_left (by norm_num) (by norm_num)
    linarith
  simp only [centipawn_to_win_percent]
  nlinarith [hfrac]

/-- A move that swings the evaluation from +9900 to -9900 centipawns has
its raw accuracy below zero, so the clamp returns exactly 0. -/
theorem accuracy_at_extreme :
    calculate_move_accuracy (centipawn_to_win_percent 9900)
      (centipawn_to_win_percent (-9900)) = 0 := by
  have h1 := win_percent_hi
  have h2 := win_percent_lo
  have hexp : Real.exp (-0.04354 *
      (centipawn_to_win_percent 9900 - centipawn_to_win_percent (-9900))) < 1 / 54 := by
    have ha : -0.04354 *
        (centipawn_to_win_percent 9900 - centipawn_to_win_percent (-9900)) < -4 := by
      nlinarith
    have hb : Real.exp (-0.04354 *
        (centipawn_to_win_percent 9900 - centipawn_to_win_percent (-9900))) <
        Real.exp (-4) := Real.exp_lt_exp.2 ha
    have h4 : Real.exp (-4) < 1 / 54 := by
      rw [Real.exp_neg, inv_lt_comm₀ (Real.exp_pos 4) (by norm_num)]
      norm_num [exp_four_gt]
    linarith
  have hp : (0 : ℝ) < Real.exp (-0.04354 *
      (centipawn_to_win_percent 9900 - centipawn_to_win_percent (-9900))) := Real.exp_pos _
  have hraw : 103.1668 * Real.exp (-0.04354 *
      (centipawn_to_win_percent 9900 - centipawn_to_win_percent (-9900))) - 3.1669 < 0 := by
    nlinarith
  simp only [calculate_move_accuracy]
  rw [min_eq_right (by linarith), max_eq_left (by linarith)]

/-- The accuracy field computed for a +99 to -99 pawn swing by a white
mover is exactly 0. -/
theorem accuracyFieldsC9 : (accuracyFields (some 99) (some (-99)) true).2.2 = some 0 := by
  have hc : (accuracyFields (some 99) (some (-99)) true).2.2 =
      some (calculate_move_accuracy (centipawn_to_win_percent (((99 : ℚ) : ℝ) * 100))
        (centipawn_to_win_percent (((-99 : ℚ) : ℝ) * 100))) := rfl
  have e1 : ((99 : ℚ) : ℝ) * 100 = 9900 := by norm_num
  have e2 : ((-99 : ℚ) : ℝ) * 100 = -9900 := by push_cast; norm_num
  rw [hc, e1, e2, accuracy_at_extreme]

/-- `analyze_game` on the C9 inputs produces exactly `recordC9`. -/
theorem movesC9_eq : (analyze_game oracleC9 gameC9).moves = [recordC9] := by
  have hcl : classify_move (some (9900 / 100 : ℚ)) (some (-(9900 / 100) : ℚ)) true =
      "Blunder" := by
    norm_num [classify_move, round1, roundHalfEven, abs_lt, Int.floor_eq_iff]
  have h0 : (analyze_game oracleC9 gameC9).moves =
      [{ move_number := 1, move := "Qa3",
         eval_before := some (9900 / 100), eval_after := some (-(9900 / 100)),
         classification := classify_move (some (9900 / 100)) (some (-(9900 / 100))) true,
         fen := "fenC9",
         best_move := if classify_move (some (9900 / 100)) (some (-(9900 / 100))) true ≠ "Best"
           then none else none,
         win_percent_before :=
           (accuracyFields (some (9900 / 100)) (some (-(9900 / 100))) true).1,
         win_percent_after :=
           (accuracyFields (some (9900 / 100)) (some (-(9900 / 100))) true).2.1,
         accuracy := (accuracyFields (some (9900 / 100)) (some (-(9900 / 100))) true).2.2,
         is_mate_before := false, is_mate_after := false,
         mate_in_before := none, mate_in_after := none }] := rfl
  rw [h0, hcl]
  rw [show (9900 / 100 : ℚ) = 99 from by norm_num]
  rw [if_pos (by decide : ("Blunder" : String) ≠ "Best")]
  rfl

/-- `calculate_game_accuracy` returns 0 when every entry is present but
non-positive: the validity filter empties the list. -/
theorem calculate_game_accuracy_nonpos (l : List ℝ) (h : ∀ x ∈ l, x ≤ 0) :
    calculate_game_accuracy (l.map some) = 0 := by
  have hval : ∀ (m : List ℝ), (∀ x ∈ m, x ≤ 0) →
      (m.map some).filterMap (fun a => a.bind (fun x => if 0 < x then some x else none)) =
        [] := by
    intro m
    induction m with
    | nil => intro _; rfl
    | cons x xs ih =>
      intro hm
      have hx : ¬ (0 : ℝ) < x := not_lt.2 (hm x (by simp))
      rw [List.map_cons, List.filterMap_cons_none (by simp [hx])]
      exact ih (fun y hy => hm y (by simp [hy]))
  simp only [calculate_game_accuracy, hval l h]
  simp

/-- The white accuracy list of the C9 analysis is exactly `[0]`. -/
theorem waccsC9 :
    (white_moves_of (analyze_game oracleC9 gameC9).moves).filterMap (fun m => m.accuracy) =
      [0] := by
  rw [movesC9_eq]
  have h1 : white_moves_of [recordC9] = [recordC9] := rfl
  rw [h1]
  rw [List.filterMap_cons_some (show (fun m : MoveAnalysis => m.accuracy) recordC9 = some 0
    from accuracyFieldsC9)]
  rfl

/-- C9 (amended): a player's game accuracy is absent exactly when that
player has no non-`None` per-move accuracy (so it is present whenever
any non-`None` accuracy exists); when at least one accuracy is present
but all present ones are non-positive, the field is `some 0`, not
absent. -/
theorem analyze_game_accuracy_absent (oracle : ℕ → EngineResponse) (game : GameInput) :
    ((analyze_game oracle game).white_accuracy = none ↔
      ((white_moves_of (analyze_game oracle game).moves).filterMap (fun m => m.accuracy))
        = []) ∧
    (((white_moves_of (analyze_game oracle game).moves).filterMap (fun m => m.accuracy)) ≠ []
      → (∀ x ∈ (white_moves_of (analyze_game oracle game).moves).filterMap
          (fun m => m.accuracy), x ≤ (0 : ℝ))
      → (analyze_game oracle game).white_accuracy = some 0) ∧
    ((analyze_game oracle game).black_accuracy = none ↔
      ((black_moves_of (analyze_game oracle game).moves).filterMap (fun m => m.accuracy))
        = []) ∧
    (((black_moves_of (analyze_game oracle game).moves).filterMap (fun m => m.accuracy)) ≠ []
      → (∀ x ∈ (black_moves_of (analyze_game oracle game).moves).filterMap
          (fun m => m.accuracy), x ≤ (0 : ℝ))
      → (analyze_game oracle game).black_accuracy = some 0) := by
  have hwa : (analyze_game oracle game).white_accuracy =
      (if ((white_moves_of (analyze_game oracle game).moves).filterMap
          (fun m => m.accuracy)).isEmpty then none
       else some (calculate_game_accuracy
          (((white_moves_of (analyze_game oracle game).moves).filterMap
            (fun m => m.accuracy)).map some))) := rfl
  have hba : (analyze_game oracle game).black_accuracy =
      (if ((black_moves_of (analyze_game oracle game).moves).filterMap
          (fun m => m.accuracy)).isEmpty then none
       else some (calculate_game_accuracy
          (((black_moves_of (analyze_game oracle game).moves).filterMap
            (fun m => m.accuracy)).map some))) := rfl
  refine ⟨?_, ?_, ?_, ?_⟩
  · rw [hwa]
    by_cases hL : (white_moves_of (analyze_game oracle game).moves).filterMap
        (fun m => m.accuracy) = []
    · simp [hL]
    · rw [if_neg (by simpa [List.isEmpty_iff] using hL)]
      simp [hL]
  · intro hne hle
    rw [hwa, if_neg (by simpa [List.isEmpty_iff] using hne)]
    exact congrArg some (calculate_game_accuracy_nonpos _ hle)
  · rw [hba]
    by_cases hL : (black_moves_of (analyze_game oracle game).moves).filterMap
        (fun m => m.accuracy) = []
    · simp [hL]
    · rw [if_neg (by simpa [List.isEmpty_iff] using hL)]
      simp [hL]
  · intro hne hle
    rw [hba, if_neg (by simpa [List.isEmpty_iff] using hne)]
    exact congrArg some (calculate_game_accuracy_nonpos _ hle)

/-- C9 (counterexample): in the C9 game white's only move has the
present, non-positive accuracy 0, yet `white_accuracy` is `some 0`, not
absent as the claim demands. -/
theorem analyze_game_zero_accuracy_counterexample :
    (analyze_game oracleC9 gameC9).moves.map (fun r => r.accuracy) = [some 0] ∧
    (analyze_game oracleC9 gameC9).white_accuracy = some 0 ∧
    (analyze_game oracleC9 gameC9).white_accuracy ≠ none := by
  have hmap : (analyze_game oracleC9 gameC9).moves.map (fun r => r.accuracy) = [some 0] := by
    rw [movesC9_eq, List.map_cons, List.map_nil]
    rw [show recordC9.accuracy = some 0 from accuracyFieldsC9]
  have hwa : (analyze_game oracleC9 gameC9).white_accuracy =
      (if ((white_moves_of (analyze_game oracleC9 gameC9).moves).filterMap
          (fun m => m.accuracy)).isEmpty then none
       else some (calculate_game_accuracy
          (((white_moves_of (analyze_game oracleC9 gameC9).moves).filterMap
            (fun m => m.accuracy)).map some))) := rfl
  have hval : (analyze_game oracleC9 gameC9).white_accuracy = some 0 := by
    rw [hwa, waccsC9]
    rw [if_neg (by simp)]
    exact congrArg some (calculate_game_accuracy_nonpos [0] (by intro x hx; simp at hx; simp [hx]))
  exact ⟨hmap, hval, by rw [hval]; simp⟩

/-- C9 witness: the amended absence rule evaluated on the C9 game, whose
white accuracy list is the non-empty, all-non-positive `[0]`. -/
theorem analyze_game_accuracy_absent_witness :
    ((white_moves_of (analyze_game oracleC9 gameC9).moves).filterMap
        (fun m => m.accuracy) ≠ []) ∧
    (∀ x ∈ (white_moves_of (analyze_game oracleC9 gameC9).moves).filterMap
        (fun m => m.accuracy), x ≤ (0 : ℝ)) ∧
    (analyze_game oracleC9 gameC9).white_accuracy = some 0 := by
  have h1 : (white_moves_of (analyze_game oracleC9 gameC9).moves).filterMap
      (fun m => m.accuracy) ≠ [] := by
    rw [waccsC9]
    simp
  have h2 : ∀ x ∈ (white_moves_of (analyze_game oracleC9 gameC9).moves).filterMap
      (fun m => m.accuracy), x ≤ (0 : ℝ) := by
    intro x hx
    rw [waccsC9] at hx
    simp at hx
    simp [hx]
  exact ⟨h1, h2, (analyze_game_accuracy_absent oracleC9 gameC9).2.1 h1 h2⟩

end ChessEval
